import Mathlib

/-!
# Blogicum — verification of the visibility / authorization / query-composition layer

Shallow embedding of the Django application in `blogicum/blog/` (views.py,
mixins.py, forms.py).  The ORM models (models.py) are not part of the sources;
their record shapes follow the spec's data model (§3), while every operation
below is translated from the view / form / mixin code.  Datetimes are
represented as integer keys (`Int`), ordered as the real timestamps are.
-/

namespace Blogicum

/-- Modelled from the spec: §3 Category `{ id, title, slug, is_published }`
(models.py is not among the sources). -/
structure Category where
  id : Nat
  title : String
  slug : String
  is_published : Bool
deriving DecidableEq, Repr

/-- Modelled from the spec: §3 Location `{ id, name }`. -/
structure Location where
  id : Nat
  name : String
deriving DecidableEq, Repr

/-- Modelled from the spec: §3 User/Profile `{ username (unique key),
first_name, last_name, email, password }`. -/
structure User where
  username : String
  first_name : String
  last_name : String
  email : String
  password : String
deriving DecidableEq, Repr

/-- Modelled from the spec: §3 Post `{ id, title, text, pub_date,
is_published, author, category (nullable), location (nullable), image
(optional), created_at }`.  `author` is the owning user's username (the
unique lookup key), `category`/`location` hold foreign ids. -/
structure Post where
  id : Nat
  title : String
  text : String
  pub_date : Int
  is_published : Bool
  author : String
  category : Option Nat
  location : Option Nat
  image : Option String
  created_at : Int
deriving DecidableEq, Repr

/-- Modelled from the spec: §3 Comment `{ id, text, author, post, created_at }`. -/
structure Comment where
  id : Nat
  text : String
  author : String
  post : Nat
  created_at : Int
deriving DecidableEq, Repr

/-- The storage backend: one table per model (§3 relationships). -/
structure DB where
  users : List User
  categories : List Category
  locations : List Location
  posts : List Post
  comments : List Comment
deriving DecidableEq, Repr

/-- `Post.objects.get(pk=pk)` / `get_object_or_404(Post, pk=pk)` lookup. -/
def findPost (db : DB) (pk : Nat) : Option Post :=
  db.posts.find? (fun p => p.id == pk)

/-- `Comment` lookup by primary key (`pk_url_kwarg = comment_id`). -/
def findComment (db : DB) (pk : Nat) : Option Comment :=
  db.comments.find? (fun c => c.id == pk)

/-- `User` lookup by the `username` slug field (`ProfileDetailView.slug_field`). -/
def findUser (db : DB) (username : String) : Option User :=
  db.users.find? (fun u => u.username == username)

/-- `Category` lookup by id (the FK target of `Post.category`). -/
def findCategory (db : DB) (cid : Nat) : Option Category :=
  db.categories.find? (fun c => c.id == cid)

/-- The ORM join `category__is_published=True` (views.py:117): a post passes
iff it has a category and that category is published; a NULL category fails
the join condition. -/
def categoryPublished (db : DB) (p : Post) : Bool :=
  match p.category with
  | none => false
  | some cid =>
    match findCategory db cid with
    | none => false
    | some c => c.is_published

/-- The Visibility Filter (views.py:115-119):
`is_published=True, category__is_published=True, pub_date__lte=now`. -/
def visibleB (db : DB) (T : Int) (p : Post) : Bool :=
  p.is_published && categoryPublished db p && decide (p.pub_date ≤ T)

/-- `.annotate(comment_count=Count('comments'))` (views.py:114): the number
of comments whose `post` FK is this post's id. -/
def commentCount (db : DB) (p : Post) : Nat :=
  (db.comments.filter (fun c => c.post == p.id)).length

/-- A row of a listing queryset: the post together with its
`comment_count` annotation. -/
structure AnnotatedPost where
  post : Post
  comment_count : Nat
deriving DecidableEq, Repr

/-- Attach the `comment_count` annotation to every row. -/
def annotateComments (db : DB) (ps : List Post) : List AnnotatedPost :=
  ps.map (fun p => ⟨p, commentCount db p⟩)

/-- The `order_by('-pub_date')` order on annotated rows: `a` precedes `b`
when `a`'s publication key is the later one. -/
def annLe (a b : AnnotatedPost) : Prop :=
  b.post.pub_date ≤ a.post.pub_date

instance : DecidableRel annLe := fun a b =>
  inferInstanceAs (Decidable (b.post.pub_date ≤ a.post.pub_date))

instance : IsTotal AnnotatedPost annLe :=
  ⟨fun a b => le_total b.post.pub_date a.post.pub_date⟩

instance : IsTrans AnnotatedPost annLe :=
  ⟨fun _ _ _ h1 h2 => le_trans h2 h1⟩

/-- `.order_by('-pub_date')`: sort rows by descending publication key. -/
def orderByPubDateDesc (l : List AnnotatedPost) : List AnnotatedPost :=
  List.insertionSort annLe l

/-- `PostListView.get_queryset` (views.py:109-120): all posts passing the
Visibility Filter, annotated with `comment_count`, ordered by `-pub_date`.
`T` is `timezone.now()`. -/
def listIndex (db : DB) (T : Int) : List AnnotatedPost :=
  orderByPubDateDesc (annotateComments db (db.posts.filter (visibleB db T)))

/-- The response of a request handler: a redirect target or an error page.
`redirectLogin` is `LoginRequiredMixin` sending the visitor to the login
page; `forbidden` is `UserPassesTestMixin` denying a failed `test_func`;
`invalidForm` re-renders the bound form with its errors. -/
inductive MutResponse where
  | redirectLogin
  | notFound
  | forbidden
  | redirectIndex
  | redirectPostDetail (pk : Nat)
  | redirectProfile (username : String)
  | invalidForm
deriving DecidableEq, Repr

/-- Gregorian leap-year rule, as Python's `datetime` validates dates. -/
def isLeapYear (y : Nat) : Bool :=
  (y % 4 == 0 && y % 100 != 0) || y % 400 == 0

/-- Days in a month, as Python's `datetime` validates dates. -/
def daysInMonth (y m : Nat) : Nat :=
  if m == 2 then (if isLeapYear y then 29 else 28)
  else if m == 4 || m == 6 || m == 9 || m == 11 then 30
  else 31

/-- Strip leading and trailing whitespace, as Python's `str.strip` does
before `strptime` is tried. -/
def trimChars (cs : List Char) : List Char :=
  ((cs.dropWhile Char.isWhitespace).reverse.dropWhile Char.isWhitespace).reverse

/-- Split a character list on the literal `'.'` separators of the
`'%d.%m.%Y'` format. -/
def splitOnDot : List Char → List (List Char)
  | [] => [[]]
  | c :: rest =>
    match splitOnDot rest with
    | [] => [[c]]
    | h :: t => if c = '.' then [] :: h :: t else (c :: h) :: t

/-- The numeric value of a list of decimal digits. -/
def digitsToNat (cs : List Char) : Nat :=
  cs.foldl (fun n c => n * 10 + (c.toNat - 48)) 0

/-- A run of one to `maxLen` decimal digits, as the `strptime` directives
`%d`/`%m` (`maxLen = 2`) and `%Y` (`maxLen = 4`) accept. -/
def digitRun (maxLen : Nat) (cs : List Char) : Bool :=
  decide (1 ≤ cs.length) && decide (cs.length ≤ maxLen) && cs.all Char.isDigit

/-- `strptime(value.strip(), '%d.%m.%Y')` — the single entry of
`PostForm.pub_date.input_formats` (forms.py:27).  `%d` and `%m` match one
or two digits, `%Y` up to four, with the literal dots in between; the
whole (stripped) string must be consumed, so a trailing time component is
a parse failure.  Day-of-month is validated against the calendar.
Returns `(day, month, year)`. -/
def parseDMY (s : String) : Option (Nat × Nat × Nat) :=
  match splitOnDot (trimChars s.toList) with
  | [ds, ms, ys] =>
    if digitRun 2 ds && digitRun 2 ms && digitRun 4 ys then
      let d := digitsToNat ds
      let m := digitsToNat ms
      let y := digitsToNat ys
      if 1 ≤ m ∧ m ≤ 12 ∧ 1 ≤ d ∧ d ≤ daysInMonth y m then some (d, m, y)
      else none
    else none
  | _ => none

/-- Abstract, strictly monotone encoding of midnight of a calendar date as
the `Int` datetime key used for `pub_date`. -/
def dateKey (y m d : Nat) : Int :=
  (((y * 12 + m) * 31 + d) * 86400 : Nat)

/-- Parsing of the `pub_date` form field: the value a valid submission
binds to `pub_date` (the parse of `input_formats=['%d.%m.%Y']`), `none` on
a `ValidationError`. -/
def parsePubDate (s : String) : Option Int :=
  (parseDMY s).map (fun t => dateKey t.2.2 t.2.1 t.1)

/-- The raw data bound by `PostForm`
(`fields = [title, text, pub_date, category, location, image]`, forms.py:39). -/
structure PostFormData where
  title : String
  text : String
  pub_date : String
  category : Option Nat
  location : Option Nat
  image : Option String
deriving DecidableEq, Repr

/-- Modelled from the spec: validity of the non-date `PostForm` fields
(models.py is absent) — `title`/`text` are required, `category` and
`location` are nullable foreign keys that must resolve when given,
`image` is optional. -/
def postFieldsValid (db : DB) (fd : PostFormData) : Bool :=
  fd.title != "" && fd.text != "" &&
  (match fd.category with
   | none => true
   | some cid => (findCategory db cid).isSome) &&
  (match fd.location with
   | none => true
   | some lid => (db.locations.find? (fun l => l.id == lid)).isSome)

/-- `PostCreateView` (views.py:123-136): `LoginRequiredMixin`, then form
validation; `form_valid` sets `instance.author = request.user`; success
redirects to `blog:profile` of the author.  `newId` is the key the storage
backend assigns, `now` the creation timestamp. -/
def createPost (db : DB) (requestUser : Option String) (fd : PostFormData)
    (newId : Nat) (now : Int) : MutResponse × DB :=
  match requestUser with
  | none => (.redirectLogin, db)
  | some u =>
    match parsePubDate fd.pub_date with
    | none => (.invalidForm, db)
    | some key =>
      if postFieldsValid db fd then
        (.redirectProfile u,
          { db with posts := db.posts ++
              [⟨newId, fd.title, fd.text, key, true, u, fd.category,
                fd.location, fd.image, now⟩] })
      else (.invalidForm, db)

/-- `PostUpdateView` (views.py:139-148): `LoginRequiredMixin`, then
`AuthorRequiredMixin.test_func` = `get_object().author == request.user`
(mixins.py:4-6; `get_object` raises 404 first if the pk is absent), then
the same `PostForm`; success redirects to `blog:post_detail`. -/
def updatePost (db : DB) (requestUser : Option String) (pk : Nat)
    (fd : PostFormData) : MutResponse × DB :=
  match requestUser with
  | none => (.redirectLogin, db)
  | some u =>
    match findPost db pk with
    | none => (.notFound, db)
    | some p =>
      if p.author == u then
        match parsePubDate fd.pub_date with
        | none => (.invalidForm, db)
        | some key =>
          if postFieldsValid db fd then
            (.redirectPostDetail pk,
              { db with posts := db.posts.map (fun q =>
                  if q.id == pk then
                    { q with
                      title := fd.title
                      text := fd.text
                      pub_date := key
                      category := fd.category
                      location := fd.location
                      image := fd.image }
                  else q) })
          else (.invalidForm, db)
      else (.forbidden, db)

/-- `PostDeleteView` (views.py:151-155): `LoginRequiredMixin` +
`AuthorRequiredMixin`; success redirects to `blog:index`.  Deleting a post
removes its dependent comments (§3: never cascades silently — deleting a
post removes dependent comments). -/
def deletePost (db : DB) (requestUser : Option String) (pk : Nat) :
    MutResponse × DB :=
  match requestUser with
  | none => (.redirectLogin, db)
  | some u =>
    match findPost db pk with
    | none => (.notFound, db)
    | some p =>
      if p.author == u then
        (.redirectIndex,
          { db with
            posts := db.posts.filter (fun q => q.id != pk)
            comments := db.comments.filter (fun c => c.post != pk) })
      else (.forbidden, db)

/-- Modelled from the spec: validity of the single `AddCommentForm` /
`CommentUpdateView` text field (models.py is absent) — §4.5 "Validates
text is non-empty". -/
def commentTextValid (t : String) : Bool :=
  t != ""

/-- `add_comment` (views.py:171-182): `@login_required`, then
`get_object_or_404(Post, pk=pk)`; if the form is valid a comment with
`author = request.user`, `post = post` is saved; valid or not, the
response redirects to `blog:post_detail` of the post. -/
def addComment (db : DB) (requestUser : Option String) (pk : Nat)
    (text : String) (newId : Nat) (now : Int) : MutResponse × DB :=
  match requestUser with
  | none => (.redirectLogin, db)
  | some u =>
    match findPost db pk with
    | none => (.notFound, db)
    | some p =>
      if commentTextValid text then
        (.redirectPostDetail p.id,
          { db with comments := db.comments ++ [⟨newId, text, u, p.id, now⟩] })
      else (.redirectPostDetail p.id, db)

/-- `CommentUpdateView` (views.py:185-195): `LoginRequiredMixin` +
`AuthorRequiredMixin`; `fields = [text]`; success redirects to
`blog:post_detail` of the parent post. -/
def updateComment (db : DB) (requestUser : Option String) (pk : Nat)
    (text : String) : MutResponse × DB :=
  match requestUser with
  | none => (.redirectLogin, db)
  | some u =>
    match findComment db pk with
    | none => (.notFound, db)
    | some c =>
      if c.author == u then
        if commentTextValid text then
          (.redirectPostDetail c.post,
            { db with comments := db.comments.map (fun d =>
                if d.id == pk then { d with text := text } else d) })
        else (.invalidForm, db)
      else (.forbidden, db)

/-- `CommentDeleteView` (views.py:198-207): `LoginRequiredMixin` +
`AuthorRequiredMixin`; success redirects to `blog:post_detail` of the
parent post. -/
def deleteComment (db : DB) (requestUser : Option String) (pk : Nat) :
    MutResponse × DB :=
  match requestUser with
  | none => (.redirectLogin, db)
  | some u =>
    match findComment db pk with
    | none => (.notFound, db)
    | some c =>
      if c.author == u then
        (.redirectPostDetail c.post,
          { db with comments := db.comments.filter (fun d => d.id != pk) })
      else (.forbidden, db)

/-- `CategoryListView.get_queryset` (views.py:73-96):
`get_object_or_404(Category, slug=slug, is_published=True)` — `none`
models the `Http404` — then the posts of that category with
`is_published=True, pub_date__lte=now`, annotated with `comment_count`
and ordered by `-pub_date`. -/
def listByCategory (db : DB) (T : Int) (slug : String) :
    Option (List AnnotatedPost) :=
  match db.categories.find? (fun c => c.slug == slug && c.is_published) with
  | none => none
  | some cat =>
    some (orderByPubDateDesc (annotateComments db
      (db.posts.filter (fun p =>
        p.category == some cat.id && p.is_published && decide (p.pub_date ≤ T)))))

/-- `ProfileDetailView` (views.py:21-51): the user is resolved by
`username` (`Http404` when absent, modelled by `none`); the prefetched
`posts` queryset applies NO visibility filter — every post of the user,
annotated with `comment_count`, ordered by `-pub_date`. -/
def listByProfile (db : DB) (username : String) :
    Option (List AnnotatedPost) :=
  match findUser db username with
  | none => none
  | some _ =>
    some (orderByPubDateDesc (annotateComments db
      (db.posts.filter (fun p => p.author == username))))

/-- `PostDetailView` (views.py:158-168): a plain `DetailView` over the
unfiltered default queryset; the request's user plays no part in the
lookup.  The context also carries the post's comments. -/
def postDetail (db : DB) (_requestUser : Option String) (pk : Nat) :
    Option (Post × List Comment) :=
  match findPost db pk with
  | none => none
  | some p => some (p, db.comments.filter (fun c => c.post == p.id))

/-- The data bound by `ProfileUpdateForm`
(`fields = (first_name, last_name, email, username)`, forms.py:11; the
`password` field is popped in `__init__`, forms.py:15). -/
structure ProfileFormData where
  first_name : String
  last_name : String
  email : String
  username : String
deriving DecidableEq, Repr

/-- `ModelForm.validate_unique` for `User.username` (unique per the auth
model and spec §3): the submitted username clashes when some user other
than the one being edited (excluded by key, here the current username)
already carries it. -/
def usernameTakenByOther (db : DB) (current target : String) : Bool :=
  db.users.any (fun v => v.username != current && v.username == target)

/-- `ProfileUpdateView` (views.py:54-65): `LoginRequiredMixin`;
`get_object` returns `request.user` — the target is always the current
user; the bound `ModelForm` requires a nonempty username and rejects a
rename onto another existing user's username (`validate_unique`),
re-rendering with errors and writing nothing; on success the form writes
exactly the four editable fields and redirects to `blog:profile` under
`self.object.username`, i.e. the NEW username. -/
def profileUpdate (db : DB) (requestUser : Option String)
    (fd : ProfileFormData) : MutResponse × DB :=
  match requestUser with
  | none => (.redirectLogin, db)
  | some uname =>
    if fd.username != "" && !usernameTakenByOther db uname fd.username then
      (.redirectProfile fd.username,
        { db with users := db.users.map (fun u =>
            if u.username == uname then
              { u with
                first_name := fd.first_name
                last_name := fd.last_name
                email := fd.email
                username := fd.username }
            else u) })
    else (.invalidForm, db)

/-- `Paginator.num_pages` with `allow_empty_first_page=True` (the default
used by both `ListView` and the profile's explicit `Paginator`):
`ceil(max(1, count) / per_page)`. -/
def numPages (count per : Nat) : Nat :=
  (max 1 count + (per - 1)) / per

/-- One `Page` object of Django's `Paginator`. -/
structure PageObj (α : Type) where
  object_list : List α
  number : Nat
  has_next : Bool
  has_previous : Bool
deriving DecidableEq, Repr

/-- `Paginator.page(number)` for an already-validated `number`: the slice
of rows `[(number-1)*per, number*per)` plus navigation metadata. -/
def pageAt (l : List α) (per n : Nat) : PageObj α :=
  ⟨(l.drop ((n - 1) * per)).take per, n,
    decide (n < numPages l.length per), decide (1 < n)⟩

/-- Python's `int(str)`: optional sign, at least one digit, surrounding
whitespace tolerated; `none` models the `ValueError`. -/
def parseIntStr (s : String) : Option Int :=
  match trimChars s.toList with
  | [] => none
  | c :: cs =>
    if c = '-' then
      if cs ≠ [] ∧ cs.all Char.isDigit = true then some (-(digitsToNat cs : Int))
      else none
    else if c = '+' then
      if cs ≠ [] ∧ cs.all Char.isDigit = true then some ((digitsToNat cs : Nat) : Int)
      else none
    else if (c :: cs).all Char.isDigit then some ((digitsToNat (c :: cs) : Nat) : Int)
    else none

/-- `ListView.paginate_queryset` as configured by `paginate_by = 10` on
`PostListView` and `CategoryListView` (views.py:71,107): a missing page
parameter means page 1; a non-integer other than `'last'` raises
`Http404`; `Paginator.page` raises `InvalidPage` → `Http404` when the
number is out of `[1, num_pages]`.  `none` models the 404. -/
def listViewPaginate (l : List α) (per : Nat) (param : Option String) :
    Option (PageObj α) :=
  let pstr := param.getD "1"
  match parseIntStr pstr with
  | none =>
    if pstr == "last" then some (pageAt l per (numPages l.length per))
    else none
  | some n =>
    if 1 ≤ n ∧ n ≤ (numPages l.length per : Int) then
      some (pageAt l per n.toNat)
    else none

/-- `Paginator.get_page` as used by `ProfileDetailView.get_context_data`
(views.py:48-50): a value that is not an integer (including a missing
parameter) falls back to page 1, an integer outside `[1, num_pages]`
falls back to the last page; it never fails. -/
def getPage (l : List α) (per : Nat) (param : Option String) : PageObj α :=
  match param with
  | none => pageAt l per 1
  | some s =>
    match parseIntStr s with
    | none => pageAt l per 1
    | some n =>
      if 1 ≤ n ∧ n ≤ (numPages l.length per : Int) then pageAt l per n.toNat
      else pageAt l per (numPages l.length per)

/-- The fixed page size shared by all three listings
(`paginate_by = 10`, `Paginator(..., 10)`). -/
def pageSize : Nat := 10

/-- `Count('comments')` keyed by a raw post id rather than a row. -/
def commentCountById (db : DB) (pk : Nat) : Nat :=
  (db.comments.filter (fun c => c.post == pk)).length

section Fixtures

/-- Sample user `alice` (spec §8 scenarios). -/
def sampleAlice : User := ⟨"alice", "Alice", "L", "alice@example.com", "secretpw"⟩

/-- Sample user `bob` (spec §8: the non-owner). -/
def sampleBob : User := ⟨"bob", "Bob", "M", "bob@example.com", "otherpw"⟩

/-- Published category `news` (spec §8 scenario). -/
def newsCategory : Category := ⟨1, "News", "news", true⟩

/-- An unpublished category, whose listing must 404. -/
def hiddenCategory : Category := ⟨2, "Hidden", "hidden", false⟩

/-- A post visible at `sampleNow`: published, in a published category,
publication date in the past. -/
def livePost : Post :=
  ⟨1, "A", "body", dateKey 2020 1 1, true, "alice", some 1, none, none, 0⟩

/-- An unpublished (draft) post of `alice`. -/
def draftPost : Post :=
  ⟨2, "Draft", "body", dateKey 2020 1 2, false, "alice", some 1, none, none, 0⟩

/-- A published but future-dated post of `alice`. -/
def futurePost : Post :=
  ⟨3, "Future", "body", dateKey 2030 1 1, true, "alice", some 1, none, none, 0⟩

/-- The post with id 5 targeted by the §8 comment scenario; deliberately
unpublished, since a post need not be visible to accept comments. -/
def commentTarget : Post :=
  ⟨5, "Target", "body", dateKey 2020 2 1, false, "alice", some 1, none, none, 0⟩

/-- An existing comment of `alice` on `livePost`. -/
def sampleComment : Comment := ⟨1, "hi", "alice", 1, 0⟩

/-- The sample database used to instantiate the theorems. -/
def sampleDB : DB :=
  ⟨[sampleAlice, sampleBob], [newsCategory, hiddenCategory], [],
   [livePost, draftPost, futurePost, commentTarget], [sampleComment]⟩

/-- "Now" for the sample database: 2026-01-01, after the live posts and
before `futurePost`. -/
def sampleNow : Int := dateKey 2026 1 1

/-- A valid `PostForm` submission with a date-only `pub_date`. -/
def sampleFD : PostFormData :=
  ⟨"A", "body", "01.01.2020", some 1, none, none⟩

/-- The §8 scenario submission, whose `pub_date` carries a time component. -/
def scenarioFD : PostFormData :=
  ⟨"A", "body", "01.01.2020 00:00:00", some 1, none, none⟩

/-- A profile edit renaming `alice` to `alice2`. -/
def sampleProfileFD : ProfileFormData :=
  ⟨"New", "Name", "new@example.com", "alice2"⟩

/-- A profile edit trying to rename `alice` to the already-taken
username `bob`. -/
def takenRenameFD : ProfileFormData :=
  ⟨"New", "Name", "new@example.com", "bob"⟩

/-- 25 posts all passing the Visibility Filter, for the pagination
scenario. -/
def manyPosts : List Post :=
  (List.range 25).map (fun i =>
    ⟨100 + i, "P", "b", (1000 + i : Nat), true, "alice", some 1, none, none, 0⟩)

/-- A database holding exactly 25 visible posts. -/
def bigDB : DB := ⟨[sampleAlice], [newsCategory], [], manyPosts, []⟩

end Fixtures

/-- Membership in a sorted annotated listing reduces to membership in the
underlying list. -/
theorem mem_orderByPubDateDesc {l : List AnnotatedPost} {a : AnnotatedPost} :
    a ∈ orderByPubDateDesc l ↔ a ∈ l :=
  List.mem_insertionSort annLe

/-- A row of `annotateComments` carries exactly the stored comment count of
its post. -/
theorem annotateComments_count (db : DB) (ps : List Post) :
    ∀ a ∈ annotateComments db ps, a.comment_count = commentCount db a.post := by
  intro a ha
  rcases List.mem_map.mp ha with ⟨p, _, rfl⟩
  rfl

/-- A post appears among the rows of `annotateComments db ps` iff it is in `ps`. -/
theorem annotateComments_mem (db : DB) (ps : List Post) (p : Post) :
    (∃ a ∈ annotateComments db ps, a.post = p) ↔ p ∈ ps := by
  constructor
  · rintro ⟨a, ha, rfl⟩
    rcases List.mem_map.mp ha with ⟨q, hq, rfl⟩
    exact hq
  · intro hp
    exact ⟨⟨p, commentCount db p⟩, List.mem_map.mpr ⟨p, hp, rfl⟩, rfl⟩

/-- Membership in a filtered, annotated, ordered listing reduces to the
filter condition. -/
theorem listing_mem (db : DB) (cond : Post → Bool) (p : Post) :
    (∃ a ∈ orderByPubDateDesc (annotateComments db (db.posts.filter cond)),
        a.post = p)
      ↔ p ∈ db.posts ∧ cond p = true := by
  constructor
  · rintro ⟨a, ha, hp⟩
    exact List.mem_filter.mp
      ((annotateComments_mem db (db.posts.filter cond) p).mp
        ⟨a, mem_orderByPubDateDesc.mp ha, hp⟩)
  · intro h
    rcases (annotateComments_mem db (db.posts.filter cond) p).mpr
        (List.mem_filter.mpr h) with ⟨a, ha, hp⟩
    exact ⟨a, mem_orderByPubDateDesc.mpr ha, hp⟩

/-- Every row of a filtered, annotated, ordered listing carries the exact
stored comment count of its post. -/
theorem listing_count (db : DB) (cond : Post → Bool) :
    ∀ a ∈ orderByPubDateDesc (annotateComments db (db.posts.filter cond)),
      a.comment_count = commentCount db a.post :=
  fun a ha => annotateComments_count db _ a (mem_orderByPubDateDesc.mp ha)

/-- `find?` over a list whose images under `f` are distinct locates a
member by its `f`-value. -/
theorem find_eq_of_nodup_map {α β : Type} [DecidableEq β] (f : α → β)
    (l : List α) (c : α) (hnd : (l.map f).Nodup) (hmem : c ∈ l) :
    l.find? (fun x => f x == f c) = some c := by
  induction l with
  | nil => cases hmem
  | cons a l ih =>
    rw [List.map_cons, List.nodup_cons] at hnd
    rcases List.mem_cons.mp hmem with rfl | hmem'
    · simp [List.find?]
    · have hne : (f a == f c) = false := by
        refine beq_eq_false_iff_ne.mpr (fun h => hnd.1 ?_)
        exact h ▸ List.mem_map_of_mem f hmem'
      rw [List.find?_cons, hne]
      exact ih hnd.2 hmem'

/-- When category ids are distinct, a post pointing at a stored category
has exactly that category's published flag. -/
theorem categoryPublished_of_mem (db : DB) (c : Category)
    (hnd : (db.categories.map Category.id).Nodup) (hmem : c ∈ db.categories)
    (p : Post) (hp : p.category = some c.id) :
    categoryPublished db p = c.is_published := by
  unfold categoryPublished
  rw [hp]
  show (match findCategory db c.id with
    | none => false
    | some c => c.is_published) = c.is_published
  unfold findCategory
  rw [find_eq_of_nodup_map Category.id db.categories c hnd hmem]

/-- Unfolding the Visibility Filter into its three conjuncts. -/
theorem visibleB_eq_true (db : DB) (T : Int) (p : Post) :
    visibleB db T p = true ↔
      p.is_published = true ∧ categoryPublished db p = true ∧ p.pub_date ≤ T := by
  simp [visibleB, Bool.and_eq_true, and_assoc]

/-- A post appears in the index queryset iff it is stored and passes the
Visibility Filter. -/
theorem listIndex_mem (db : DB) (T : Int) (p : Post) :
    (∃ a ∈ listIndex db T, a.post = p) ↔ p ∈ db.posts ∧ visibleB db T p = true := by
  have h1 : (∃ a ∈ listIndex db T, a.post = p) ↔
      ∃ a ∈ annotateComments db (db.posts.filter (visibleB db T)), a.post = p := by
    constructor
    · rintro ⟨a, ha, hp⟩; exact ⟨a, mem_orderByPubDateDesc.mp ha, hp⟩
    · rintro ⟨a, ha, hp⟩; exact ⟨a, mem_orderByPubDateDesc.mpr ha, hp⟩
  rw [h1, annotateComments_mem, List.mem_filter]

/-- C1: a post is in the index listing iff `is_published` is true, its
category's `is_published` is true and `pub_date ≤ T`; every returned row
carries the `comment_count` annotation, and the rows are ordered by
`pub_date` descending. -/
theorem listIndex_filter_count_order (db : DB) (T : Int) :
    (∀ p : Post, (∃ a ∈ listIndex db T, a.post = p) ↔
        (p ∈ db.posts ∧ p.is_published = true ∧ categoryPublished db p = true ∧
          p.pub_date ≤ T))
    ∧ (∀ a ∈ listIndex db T, a.comment_count = commentCount db a.post)
    ∧ List.Sorted annLe (listIndex db T) := by
  refine ⟨fun p => ?_, fun a ha => ?_, ?_⟩
  · rw [listIndex_mem, visibleB_eq_true]
  · exact annotateComments_count db _ a (mem_orderByPubDateDesc.mp ha)
  · exact List.sorted_insertionSort annLe _

/-- C1 witness: at the sample database, the visible post is listed. -/
theorem listIndex_filter_count_order_witness :
    ∃ a ∈ listIndex sampleDB sampleNow, a.post = livePost :=
  ((listIndex_filter_count_order sampleDB sampleNow).1 livePost).mpr
    (by decide)

/-- C2: every mutation on a post or comment is gated identically: an
unauthenticated requester is redirected to login, an authenticated
non-author is refused by `AuthorRequiredMixin`, and in all these cases
the database is unchanged. -/
theorem mutation_owner_gate (db : DB) (pk : Nat) (fd : PostFormData)
    (txt u : String) (p : Post) (c : Comment)
    (hp : findPost db pk = some p) (hpa : p.author ≠ u)
    (hc : findComment db pk = some c) (hca : c.author ≠ u) :
    updatePost db none pk fd = (.redirectLogin, db)
    ∧ deletePost db none pk = (.redirectLogin, db)
    ∧ updateComment db none pk txt = (.redirectLogin, db)
    ∧ deleteComment db none pk = (.redirectLogin, db)
    ∧ updatePost db (some u) pk fd = (.forbidden, db)
    ∧ deletePost db (some u) pk = (.forbidden, db)
    ∧ updateComment db (some u) pk txt = (.forbidden, db)
    ∧ deleteComment db (some u) pk = (.forbidden, db) := by
  have hpb : (p.author == u) = false := beq_eq_false_iff_ne.mpr hpa
  have hcb : (c.author == u) = false := beq_eq_false_iff_ne.mpr hca
  refine ⟨rfl, rfl, rfl, rfl, ?_, ?_, ?_, ?_⟩ <;>
    simp [updatePost, deletePost, updateComment, deleteComment, hp, hc, hpb, hcb]

/-- C2 witness: `bob` may neither edit `alice`'s post nor delete her
comment, and logged-out requests bounce to the login page. -/
theorem mutation_owner_gate_witness :
    updatePost sampleDB (some "bob") 1 sampleFD = (.forbidden, sampleDB)
    ∧ deleteComment sampleDB none 1 = (.redirectLogin, sampleDB) := by
  have h := mutation_owner_gate sampleDB 1 sampleFD "t" "bob" livePost
    sampleComment rfl (by decide) rfl (by decide)
  exact ⟨h.2.2.2.2.1, h.2.2.2.1⟩

/-- C4: the profile listing 404s exactly when the username is unknown,
and otherwise returns ALL of the user's posts — no visibility condition
appears in the membership criterion — annotated with `comment_count` and
ordered by `pub_date` descending. -/
theorem listByProfile_all_posts (db : DB) (username : String) :
    (listByProfile db username = none ↔
      ∀ u ∈ db.users, u.username ≠ username)
    ∧ (∀ l, listByProfile db username = some l →
        ((∀ p : Post, ((∃ a ∈ l, a.post = p) ↔
            (p ∈ db.posts ∧ p.author = username)))
         ∧ (∀ a ∈ l, a.comment_count = commentCount db a.post)
         ∧ List.Sorted annLe l)) := by
  constructor
  · unfold listByProfile findUser
    cases hfind : db.users.find? (fun u => u.username == username) with
    | none =>
      rw [List.find?_eq_none] at hfind
      simpa using hfind
    | some usr =>
      have hmem := List.mem_of_find?_eq_some hfind
      have hcond := List.find?_some hfind
      rw [beq_iff_eq] at hcond
      simp only []
      constructor
      · intro h; cases h
      · intro hall; exact absurd hcond (hall usr hmem)
  · intro l hl
    unfold listByProfile at hl
    cases hfind : findUser db username with
    | none => rw [hfind] at hl; cases hl
    | some usr =>
      rw [hfind] at hl
      injection hl with hl
      subst hl
      refine ⟨fun p => ?_, listing_count db _, List.sorted_insertionSort annLe _⟩
      rw [listing_mem, beq_iff_eq]

/-- C4 witness: `alice`'s unpublished draft is on her profile page. -/
theorem listByProfile_all_posts_witness :
    ∃ a ∈ (listByProfile sampleDB "alice").getD [], a.post = draftPost := by
  have h := (listByProfile_all_posts sampleDB "alice").2
    ((listByProfile sampleDB "alice").getD []) (by decide)
  exact (h.1 draftPost).mpr (by decide)

/-- C3: the category listing 404s exactly when no published category
carries the slug; otherwise it returns precisely the stored posts of that
category passing the Visibility Filter, annotated with `comment_count`
and ordered by `pub_date` descending. -/
theorem listByCategory_notfound_and_content (db : DB) (T : Int) (slug : String)
    (hids : (db.categories.map Category.id).Nodup) :
    (listByCategory db T slug = none ↔
      ∀ c ∈ db.categories, c.slug = slug → c.is_published = false)
    ∧ (∀ l, listByCategory db T slug = some l →
        ∃ c ∈ db.categories, c.slug = slug ∧ c.is_published = true ∧
          ((∀ p : Post, ((∃ a ∈ l, a.post = p) ↔
              (p ∈ db.posts ∧ p.category = some c.id ∧ visibleB db T p = true)))
           ∧ (∀ a ∈ l, a.comment_count = commentCount db a.post)
           ∧ List.Sorted annLe l)) := by
  constructor
  · unfold listByCategory
    cases hfind : db.categories.find? (fun c => c.slug == slug && c.is_published) with
    | none =>
      rw [List.find?_eq_none] at hfind
      simp only [true_iff]
      intro c hc hcs
      have := hfind c hc
      rw [Bool.and_eq_true, beq_iff_eq] at this
      cases hpub : c.is_published
      · rfl
      · exact absurd ⟨hcs, hpub⟩ this
    | some cat =>
      have hmem := List.mem_of_find?_eq_some hfind
      have hcond := List.find?_some hfind
      rw [Bool.and_eq_true, beq_iff_eq] at hcond
      constructor
      · intro h; cases h
      · intro hall
        exact absurd hcond.2 (by rw [hall cat hmem hcond.1]; decide)
  · intro l hl
    unfold listByCategory at hl
    cases hfind : db.categories.find? (fun c => c.slug == slug && c.is_published) with
    | none => rw [hfind] at hl; cases hl
    | some cat =>
      rw [hfind] at hl
      injection hl with hl
      subst hl
      have hmem := List.mem_of_find?_eq_some hfind
      have hcond := List.find?_some hfind
      rw [Bool.and_eq_true, beq_iff_eq] at hcond
      refine ⟨cat, hmem, hcond.1, hcond.2, ?_, listing_count db _,
        List.sorted_insertionSort annLe _⟩
      intro p
      rw [listing_mem]
      have hcat := categoryPublished_of_mem db cat hids hmem p
      constructor
      · rintro ⟨hp, hcnd⟩
        rw [Bool.and_eq_true, Bool.and_eq_true, beq_iff_eq, decide_eq_true_eq]
          at hcnd
        refine ⟨hp, hcnd.1.1, ?_⟩
        rw [visibleB_eq_true]
        exact ⟨hcnd.1.2, by rw [hcat hcnd.1.1]; exact hcond.2, hcnd.2⟩
      · rintro ⟨hp, hpc, hvis⟩
        rw [visibleB_eq_true] at hvis
        refine ⟨hp, ?_⟩
        rw [Bool.and_eq_true, Bool.and_eq_true, beq_iff_eq, decide_eq_true_eq]
        exact ⟨⟨hpc, hvis.1⟩, hvis.2.2⟩

/-- C3 witness: the unpublished slug 404s; the published `news` slug
lists the visible post. -/
theorem listByCategory_notfound_and_content_witness :
    listByCategory sampleDB sampleNow "hidden" = none
    ∧ ∃ a ∈ (listByCategory sampleDB sampleNow "news").getD [], a.post = livePost := by
  constructor
  · exact (listByCategory_notfound_and_content sampleDB sampleNow "hidden"
      (by decide)).1.mpr (by decide)
  · have h := (listByCategory_notfound_and_content sampleDB sampleNow "news"
      (by decide)).2 ((listByCategory sampleDB sampleNow "news").getD []) (by decide)
    rcases h with ⟨c, hcmem, hcslug, _, hiff, _, _⟩
    have hcases : c = newsCategory ∨ c = hiddenCategory := by
      simpa [sampleDB] using hcmem
    rcases hcases with rfl | rfl
    · exact (hiff livePost).mpr (by decide)
    · exact absurd hcslug (by decide)

/-- C5: `add_comment` redirects anonymous users to login, 404s on a
missing post id (visibility of the post is never consulted), persists a
comment with `author = user`, `post = target` exactly when the text is
valid — incrementing the post's comment count — silently persists
nothing on invalid text, and in both cases redirects to the post's
detail page. -/
theorem addComment_behavior (db : DB) (u : String) (pk : Nat)
    (text : String) (cid : Nat) (now : Int) :
    (addComment db none pk text cid now = (.redirectLogin, db))
    ∧ (findPost db pk = none →
        addComment db (some u) pk text cid now = (.notFound, db))
    ∧ (∀ p, findPost db pk = some p →
        ((addComment db (some u) pk text cid now).1 = .redirectPostDetail p.id)
        ∧ (text ≠ "" →
            (addComment db (some u) pk text cid now).2.comments =
              db.comments ++ [⟨cid, text, u, p.id, now⟩]
            ∧ commentCountById (addComment db (some u) pk text cid now).2 p.id =
                commentCountById db p.id + 1)
        ∧ (text = "" →
            (addComment db (some u) pk text cid now).2 = db)) := by
  refine ⟨rfl, fun hn => ?_, fun p hp => ?_⟩
  · unfold addComment; rw [hn]
  · by_cases ht : text = ""
    · subst ht
      simp [addComment, hp, commentTextValid]
    · have hv : commentTextValid text = true := by
        simp [commentTextValid, ht]
      refine ⟨?_, fun _ => ⟨?_, ?_⟩, fun he => absurd he ht⟩
      · simp [addComment, hp, hv]
      · simp [addComment, hp, hv]
      · simp [addComment, hp, hv, commentCountById, List.filter_append]

/-- C5 witness: the §8 scenario — `alice` comments `"nice"` on the (not
publicly visible) post 5; its comment count goes from 0 to 1 and the
response redirects to the detail page of post 5. -/
theorem addComment_behavior_witness :
    (addComment sampleDB (some "alice") 5 "nice" 10 50).1 =
      MutResponse.redirectPostDetail 5
    ∧ commentCountById (addComment sampleDB (some "alice") 5 "nice" 10 50).2 5 =
        commentCountById sampleDB 5 + 1 := by
  have h := (addComment_behavior sampleDB "alice" 5 "nice" 10 50).2.2
    commentTarget (by decide)
  exact ⟨h.1, (h.2.1 (by decide)).2⟩

/-- C6 counterexample: the §8 submission `"01.01.2020 00:00:00"` does NOT
succeed — `input_formats=['%d.%m.%Y']` rejects a time component, the form
is invalid and no post is created. -/
theorem createPost_scenario_rejected :
    createPost sampleDB (some "alice") scenarioFD 9 0 =
      (MutResponse.invalidForm, sampleDB)
    ∧ parsePubDate "01.01.2020 00:00:00" = none := by
  constructor
  · unfold createPost scenarioFD
    decide
  · decide

/-- C6 (amended): `pub_date` is parsed from the format `DD.MM.YYYY`
alone; the date-only submission `"01.01.2020"` succeeds, the created
post's author is the current user and the response redirects to the
author's profile page, while the same submission with the time component
`"01.01.2020 00:00:00"` is rejected with no post created. -/
theorem createPost_pubdate_format (db : DB) (u : String) (fd : PostFormData)
    (newId : Nat) (now : Int)
    (hdate : fd.pub_date = "01.01.2020")
    (hfields : postFieldsValid db fd = true) :
    createPost db (some u) { fd with pub_date := "01.01.2020 00:00:00" } newId now
      = (.invalidForm, db)
    ∧ createPost db (some u) fd newId now =
        (.redirectProfile u,
         { db with posts := db.posts ++
             [⟨newId, fd.title, fd.text, dateKey 2020 1 1, true, u, fd.category,
               fd.location, fd.image, now⟩] }) := by
  constructor
  · have hparse : parsePubDate "01.01.2020 00:00:00" = none := by decide
    simp [createPost, hparse]
  · have hparse : parsePubDate "01.01.2020" = some (dateKey 2020 1 1) := by decide
    simp [createPost, hdate, hparse, hfields]

/-- C6 (amended) witness: at the sample database the date-only
submission by `alice` creates the post and redirects to her profile. -/
theorem createPost_pubdate_format_witness :
    createPost sampleDB (some "alice") scenarioFD 9 0 =
      (MutResponse.invalidForm, sampleDB)
    ∧ (createPost sampleDB (some "alice") sampleFD 9 0).1 =
        MutResponse.redirectProfile "alice" := by
  have h := createPost_pubdate_format sampleDB "alice" sampleFD 9 0 rfl (by decide)
  constructor
  · have h1 := h.1
    rw [show ({ sampleFD with pub_date := "01.01.2020 00:00:00" } : PostFormData)
      = scenarioFD from rfl] at h1
    exact h1
  · rw [h.2]

/-- C9: the post detail view ignores the requesting user and returns any
stored post whatever its flags or date; only a missing pk yields 404. -/
theorem postDetail_unfiltered (db : DB) (pk : Nat) :
    (∀ ru ru' : Option String, postDetail db ru pk = postDetail db ru' pk)
    ∧ (∀ p, findPost db pk = some p → ∀ ru,
        postDetail db ru pk = some (p, db.comments.filter (fun c => c.post == p.id)))
    ∧ (findPost db pk = none → ∀ ru, postDetail db ru pk = none) := by
  refine ⟨fun ru ru' => rfl, fun p hp ru => ?_, fun hn ru => ?_⟩
  · unfold postDetail; rw [hp]
  · unfold postDetail; rw [hn]

/-- C9 witness: the unpublished, future-dated posts of the sample database
are served to an anonymous visitor. -/
theorem postDetail_unfiltered_witness :
    postDetail sampleDB none 2 = some (draftPost, [])
    ∧ postDetail sampleDB none 3 = some (futurePost, []) := by
  have h2 := (postDetail_unfiltered sampleDB 2).2.1 draftPost (by decide) none
  have h3 := (postDetail_unfiltered sampleDB 3).2.1 futurePost (by decide) none
  exact ⟨by rw [h2]; decide, by rw [h3]; decide⟩

/-- C7: listings use the fixed page size 10; with 25 rows passing the
filter, page 1 of the index holds exactly 10 items with `has_next`, and
page 3 holds the remaining 5 with no `has_next`. -/
theorem index_pagination_size_ten (db : DB) (T : Int)
    (h : (listIndex db T).length = 25) :
    pageSize = 10
    ∧ (∃ pg, listViewPaginate (listIndex db T) pageSize (some "1") = some pg
        ∧ pg.object_list.length = 10 ∧ pg.has_next = true)
    ∧ (∃ pg, listViewPaginate (listIndex db T) pageSize (some "3") = some pg
        ∧ pg.object_list.length = 5 ∧ pg.has_next = false) := by
  have hn : numPages (listIndex db T).length pageSize = 3 := by rw [h]; rfl
  have hp1 : parseIntStr "1" = some 1 := by decide
  have hp3 : parseIntStr "3" = some 3 := by decide
  refine ⟨rfl, ⟨pageAt (listIndex db T) pageSize 1, ?_, ?_, ?_⟩,
    ⟨pageAt (listIndex db T) pageSize 3, ?_, ?_, ?_⟩⟩
  · simp [listViewPaginate, hp1, hn]
  · simp [pageAt, List.length_take, List.length_drop, h, pageSize]
  · simp [pageAt, hn]
  · simp [listViewPaginate, hp3, hn]
  · simp [pageAt, List.length_take, List.length_drop, h, pageSize]
  · simp [pageAt, hn]

/-- C7 witness: a database of 25 visible posts paginates as the scenario
demands on page 3. -/
theorem index_pagination_size_ten_witness :
    ∃ pg, listViewPaginate (listIndex bigDB 1000000) pageSize (some "3") = some pg
      ∧ pg.object_list.length = 5 ∧ pg.has_next = false :=
  (index_pagination_size_ten bigDB 1000000 (by decide)).2.2

/-- C8: the profile update targets the current user only, writes exactly
the four editable fields, keeps every password (and every other user)
unchanged, redirects to the profile page of the NEW username, redirects
anonymous visitors to login, and rejects — writing nothing — a rename
onto a username another user already holds. -/
theorem profileUpdate_fields_and_target (db : DB) (u : String)
    (fd : ProfileFormData) (usr : User)
    (hu : findUser db u = some usr) (hval : fd.username ≠ "")
    (hfree : ∀ v ∈ db.users, v.username ≠ u → v.username ≠ fd.username) :
    profileUpdate db none fd = (.redirectLogin, db)
    ∧ (profileUpdate db (some u) fd).1 = .redirectProfile fd.username
    ∧ (∃ v ∈ (profileUpdate db (some u) fd).2.users,
        v.first_name = fd.first_name ∧ v.last_name = fd.last_name
        ∧ v.email = fd.email ∧ v.username = fd.username
        ∧ v.password = usr.password)
    ∧ (∀ v ∈ db.users, v.username ≠ u → v ∈ (profileUpdate db (some u) fd).2.users)
    ∧ ((profileUpdate db (some u) fd).2.users.map User.password =
        db.users.map User.password)
    ∧ (∀ fd' : ProfileFormData,
        (∃ v ∈ db.users, v.username ≠ u ∧ v.username = fd'.username) →
          profileUpdate db (some u) fd' = (.invalidForm, db)) := by
  have hvb : (fd.username != "") = true := by simp [hval]
  have htb : usernameTakenByOther db u fd.username = false := by
    rw [usernameTakenByOther, List.any_eq_false]
    intro v hv
    rw [Bool.and_eq_true, bne_iff_ne, beq_iff_eq]
    rintro ⟨hvne, hveq⟩
    exact hfree v hv hvne hveq
  have hcond : (fd.username != "" && !usernameTakenByOther db u fd.username)
      = true := by rw [hvb, htb]; rfl
  have hu' : db.users.find? (fun x => x.username == u) = some usr := hu
  have husr := List.mem_of_find?_eq_some hu'
  have hub := List.find?_some hu'
  refine ⟨rfl, ?_, ?_, ?_, ?_, ?_⟩
  · simp [profileUpdate, hcond]
  · refine ⟨{ usr with
      first_name := fd.first_name
      last_name := fd.last_name
      email := fd.email
      username := fd.username }, ?_, rfl, rfl, rfl, rfl, rfl⟩
    simp only [profileUpdate, hcond, if_true]
    have := List.mem_map_of_mem (fun v : User =>
      if v.username == u then
        { v with
          first_name := fd.first_name
          last_name := fd.last_name
          email := fd.email
          username := fd.username }
      else v) husr
    simpa [hub] using this
  · intro v hv hvne
    have hvb2 : (v.username == u) = false := beq_eq_false_iff_ne.mpr hvne
    simp only [profileUpdate, hcond, if_true]
    have := List.mem_map_of_mem (fun w : User =>
      if w.username == u then
        { w with
          first_name := fd.first_name
          last_name := fd.last_name
          email := fd.email
          username := fd.username }
      else w) hv
    simpa [hvb2] using this
  · simp only [profileUpdate, hcond, if_true, List.map_map]
    apply List.map_congr_left
    intro v _
    by_cases hb : v.username = u <;> simp [hb]
  · rintro fd' ⟨v, hv, hvne, hveq⟩
    have htaken : usernameTakenByOther db u fd'.username = true := by
      rw [usernameTakenByOther, List.any_eq_true]
      refine ⟨v, hv, ?_⟩
      rw [Bool.and_eq_true, bne_iff_ne, beq_iff_eq]
      exact ⟨hvne, hveq⟩
    simp [profileUpdate, htaken]

/-- C8 witness: renaming `alice` to the free username `alice2` redirects
to the new profile page and leaves all stored passwords untouched, while
renaming her to the taken username `bob` is rejected with no change. -/
theorem profileUpdate_fields_and_target_witness :
    (profileUpdate sampleDB (some "alice") sampleProfileFD).1 =
      MutResponse.redirectProfile "alice2"
    ∧ (profileUpdate sampleDB (some "alice") sampleProfileFD).2.users.map
        User.password = sampleDB.users.map User.password
    ∧ profileUpdate sampleDB (some "alice") takenRenameFD =
        (MutResponse.invalidForm, sampleDB) := by
  have h := profileUpdate_fields_and_target sampleDB "alice" sampleProfileFD
    sampleAlice rfl (by decide) (by decide)
  exact ⟨h.2.1, h.2.2.2.2.1, h.2.2.2.2.2 takenRenameFD ⟨sampleBob, by decide, by decide, rfl⟩⟩

/-- C10: the two pagination policies.  The `paginate_by` path of the
index and category listings 404s on a non-integer page (other than
`last`) and on an out-of-range integer; the profile's `get_page` path
never fails — non-integers fall back to page 1, out-of-range integers to
the last page, and a missing parameter to page 1. -/
theorem pagination_two_policies (l : List AnnotatedPost) (s : String) :
    (parseIntStr s = none → s ≠ "last" →
      listViewPaginate l pageSize (some s) = none)
    ∧ (∀ n : Int, parseIntStr s = some n →
        (n < 1 ∨ (numPages l.length pageSize : Int) < n) →
        listViewPaginate l pageSize (some s) = none)
    ∧ (parseIntStr s = none → getPage l pageSize (some s) = pageAt l pageSize 1)
    ∧ (∀ n : Int, parseIntStr s = some n →
        (n < 1 ∨ (numPages l.length pageSize : Int) < n) →
        getPage l pageSize (some s) = pageAt l pageSize (numPages l.length pageSize))
    ∧ getPage l pageSize none = pageAt l pageSize 1 := by
  refine ⟨fun hn hs => ?_, fun n hn hrange => ?_, fun hn => ?_,
    fun n hn hrange => ?_, rfl⟩
  · have hsb : (s == "last") = false := beq_eq_false_iff_ne.mpr hs
    simp [listViewPaginate, hn, hsb]
  · have hout : ¬(1 ≤ n ∧ n ≤ (numPages l.length pageSize : Int)) := by
      intro hcon; rcases hrange with hlt | hlt <;> omega
    simp [listViewPaginate, hn, hout]
  · simp [getPage, hn]
  · have hout : ¬(1 ≤ n ∧ n ≤ (numPages l.length pageSize : Int)) := by
      intro hcon; rcases hrange with hlt | hlt <;> omega
    simp [getPage, hn, hout]

/-- C10 witness: `?page=abc` 404s on the index path but yields page 1 on
the profile path; the out-of-range `?page=5` of an empty listing 404s on
the index path but yields the last page on the profile path. -/
theorem pagination_two_policies_witness :
    listViewPaginate ([] : List AnnotatedPost) pageSize (some "abc") = none
    ∧ listViewPaginate ([] : List AnnotatedPost) pageSize (some "5") = none
    ∧ getPage ([] : List AnnotatedPost) pageSize (some "abc") =
        pageAt ([] : List AnnotatedPost) pageSize 1
    ∧ getPage ([] : List AnnotatedPost) pageSize (some "5") =
        pageAt ([] : List AnnotatedPost) pageSize
          (numPages (List.length ([] : List AnnotatedPost)) pageSize) := by
  have ha := pagination_two_policies ([] : List AnnotatedPost) "abc"
  have h5 := pagination_two_policies ([] : List AnnotatedPost) "5"
  exact ⟨ha.1 (by decide) (by decide),
    h5.2.1 5 (by decide) (by decide),
    ha.2.2.1 (by decide),
    h5.2.2.2.1 5 (by decide) (by decide)⟩

end Blogicum
